import Mathlib

/-!
# Verification of the PDFParser load/parse orchestration layer

A shallow embedding of `src/pdfparser.js` (class `PDFParser`): the
process-wide id allocator and bounded binary-buffer cache, the per-instance
load / parseBuffer entry points, and the event bridge that merges the
parsing engine's incremental payloads and republishes the two terminal
signals (`pdfParser_dataReady` / `pdfParser_dataError`).

JS plain objects are modelled as association lists in insertion order with
unique keys (`cachePut` overwrites in place or appends; `cacheDelete` drops
the single property, as `delete obj[key]` does).  The asynchronous pieces
are made explicit: a load carries the outcome its single read task would
deliver, and an engine session is a list of engine events dispatched to
every handler attached at that point (Node's `EventEmitter` invokes all
listeners of an event in attachment order).
-/

namespace PdfParser

/-- Contents of a raw byte buffer. -/
abbrev Bytes := List Nat

/-- Cache keys: `this.#pdfFilePath + this.#pdfFileMTime` as a string. -/
abbrev Key := String

/-- Top-level values of engine payload objects.  The shallow merge never
looks inside a value, so they are modelled as integers. -/
abbrev JVal := Int

/-- A JS plain object used as an engine payload / accumulated result:
string keys in insertion order. -/
abbrev Obj := List (String × JVal)

/-- `PDFParser.#binBuffer`: a JS plain object from cache key to bytes. -/
abbrev Cache := List (Key × Bytes)

/-- `PDFParser.#maxBinBufferCount` (src/pdfparser.js:13). -/
def maxBinBufferCount : Nat := 10

/-- `_.has(PDFParser.#binBuffer, key)`. -/
def hasKey (c : Cache) (k : Key) : Bool :=
  c.any (fun p => p.1 == k)

/-- `PDFParser.#binBuffer[key]` (undefined when absent). -/
def cacheGet (c : Cache) (k : Key) : Option Bytes :=
  (c.find? (fun p => p.1 == k)).map (fun p => p.2)

/-- `PDFParser.#binBuffer[key] = v`: overwrite in place, or append. -/
def cachePut (c : Cache) (k : Key) (v : Bytes) : Cache :=
  match c with
  | [] => [(k, v)]
  | p :: t => if p.1 == k then (k, v) :: t else p :: cachePut t k v

/-- `delete PDFParser.#binBuffer[key]`: removes the property (keys are
unique in a JS object, so at most the first match exists). -/
def cacheDelete (c : Cache) (k : Key) : Cache :=
  match c with
  | [] => []
  | p :: t => if p.1 == k then t else p :: cacheDelete t k

/-- `_.keys(PDFParser.#binBuffer)`: key list in the object's own order. -/
def cacheKeys (c : Cache) : List Key :=
  c.map Prod.fst

/-- Lookup in a payload / result object. -/
def objLookup (o : Obj) (k : String) : Option JVal :=
  (o.find? (fun p => p.1 == k)).map (fun p => p.2)

/-- JS object spread `{...a, ...b}`: `a`'s keys in order with `b`'s values
where `b` also has the key, followed by `b`'s remaining keys in `b`'s
order. -/
def jsMerge (a b : Obj) : Obj :=
  a.map (fun p =>
    match b.find? (fun q => q.1 == p.1) with
    | some q => (p.1, q.2)
    | none => p) ++
  b.filter (fun q => ! a.any (fun p => p.1 == q.1))

/-- A `pdfParser_dataError` payload: the read-failure path emits the raw
error object itself (src/pdfparser.js:110), the engine-error path emits the
wrapper `{"parserError": detail}` (src/pdfparser.js:71). -/
inductive ErrPayload where
  | raw (err : String)
  | parserError (detail : String)
deriving DecidableEq, Repr

/-- A high-level signal emitted by a PDFParser instance. -/
inductive Emit where
  | dataReady (formImage : Option Obj)
  | dataError (payload : ErrPayload)
deriving DecidableEq, Repr

/-- The per-instance mutable state of one PDFParser.  `listeners` counts the
handler pairs attached to the engine handle by `#startParsingPDF` (one
`pdfjs_parseDataReady` plus one `pdfjs_parseDataError` listener each). -/
structure Instance where
  id : Nat
  pdfFilePath : Option String
  pdfFileMTime : Option Nat
  data : Option Obj
  listeners : Nat
deriving DecidableEq, Repr

/-- `get binBufferKey()` (src/pdfparser.js:55): JS string concatenation
`this.#pdfFilePath + this.#pdfFileMTime`; `null` prints as `"null"`. -/
def binBufferKey (inst : Instance) : Key :=
  (match inst.pdfFilePath with | some p => p | none => "null") ++
  (match inst.pdfFileMTime with | some t => toString t | none => "null")

/-- `#onPDFJSParseDataReady(data)` (src/pdfparser.js:58-67): a `null`
payload ends the session and emits `{"formImage": this.#data}`; otherwise
the payload is spread over the accumulated result (spreading `null` yields
`{}`). -/
def onPDFJSParseDataReady (inst : Instance) (payload : Option Obj) :
    Instance × List Emit :=
  match payload with
  | none => (inst, [Emit.dataReady inst.data])
  | some d => ({ inst with data := some (jsMerge (inst.data.getD []) d) }, [])

/-- `#onPDFJSParserDataError(data)` (src/pdfparser.js:69-72). -/
def onPDFJSParserDataError (inst : Instance) (detail : String) :
    Instance × List Emit :=
  ({ inst with data := none }, [Emit.dataError (ErrPayload.parserError detail)])

/-- Result of `#startParsingPDF`: updated instance plus the argument handed
to `this.#PDFJS.parsePDFData`. -/
structure StartResult where
  inst : Instance
  engineBytes : Option Bytes
deriving Repr

/-- `#startParsingPDF(buffer)` (src/pdfparser.js:74-85): resets `#data` to
`{}`, attaches one more handler pair to the engine handle, and parses
`buffer || PDFParser.#binBuffer[this.binBufferKey]` (a JS `Buffer` is an
object, hence truthy even when empty, so a supplied buffer always wins and
the cache access is short-circuited away). -/
def startParsingPDF (cache : Cache) (inst : Instance) (buffer : Option Bytes) :
    StartResult :=
  let inst' := { inst with data := some [], listeners := inst.listeners + 1 }
  { inst := inst',
    engineBytes :=
      match buffer with
      | some b => some b
      | none => cacheGet cache (binBufferKey inst') }

/-- Result of `#processBinaryCache`: possibly-evicted cache, updated
instance, bytes handed to the engine when a cached parse started, and the
method's boolean return. -/
structure CacheCheckResult where
  cache : Cache
  inst : Instance
  engineBytes : Option Bytes
  hit : Bool
deriving Repr

/-- `#processBinaryCache()` (src/pdfparser.js:87-104): on a cache hit start
parsing from the cached bytes and return `true`; otherwise, when the entry
count already exceeds `#maxBinBufferCount`, delete the key at index
`this.id % #maxBinBufferCount` of the current key list, and return
`false`. -/
def processBinaryCache (cache : Cache) (inst : Instance) : CacheCheckResult :=
  if hasKey cache (binBufferKey inst) then
    let s := startParsingPDF cache inst none
    { cache := cache, inst := s.inst, engineBytes := s.engineBytes, hit := true }
  else
    let allKeys := cacheKeys cache
    let cache' :=
      if allKeys.length > maxBinBufferCount then
        match allKeys.get? (inst.id % maxBinBufferCount) with
        | some key => cacheDelete cache key
        | none => cache
      else cache
    { cache := cache', inst := inst, engineBytes := none, hit := false }

/-- `#processPDFContent(err, data)` (src/pdfparser.js:106-116): on a read
error null the result and emit `pdfParser_dataError` with the *raw* error;
on success store the bytes under `binBufferKey` and start parsing. -/
def processPDFContent (cache : Cache) (inst : Instance)
    (res : Except String Bytes) : Cache × Instance × Option Bytes × List Emit :=
  match res with
  | Except.error err =>
      (cache, { inst with data := none }, none, [Emit.dataError (ErrPayload.raw err)])
  | Except.ok d =>
      let cache' := cachePut cache (binBufferKey inst) d
      let s := startParsingPDF cache' inst none
      (cache', s.inst, s.engineBytes, [])

/-- Result of one `loadPDF` / `parseBuffer` call, with the completion of the
read task it may have enqueued already applied.  `reads` counts tasks pushed
to the file queue; `parsing` records whether `parsePDFData` was invoked. -/
structure LoadResult where
  cache : Cache
  inst : Instance
  engineBytes : Option Bytes
  emits : List Emit
  reads : Nat
  parsing : Bool
deriving Repr

/-- `loadPDF(pdfFilePath, verbosity)` (src/pdfparser.js:123-137) together
with the delivery of its read task's outcome `readResult`.
`#processFieldInfoXML` is permanently `false`, so `tryLoadFieldInfoXML` is
never called; `mtime` is the `statSync` snapshot. -/
def loadPDF (cache : Cache) (inst : Instance) (path : String) (mtime : Nat)
    (readResult : Except String Bytes) : LoadResult :=
  let inst' := { inst with pdfFilePath := some path, pdfFileMTime := some mtime }
  let r := processBinaryCache cache inst'
  if r.hit then
    { cache := r.cache, inst := r.inst, engineBytes := r.engineBytes,
      emits := [], reads := 0, parsing := true }
  else
    match processPDFContent r.cache r.inst readResult with
    | (c, i, eb, es) =>
      { cache := c, inst := i, engineBytes := eb, emits := es, reads := 1,
        parsing := readResult.isOk }

/-- `parseBuffer(pdfBuffer)` (src/pdfparser.js:140-142). -/
def parseBuffer (cache : Cache) (inst : Instance) (buffer : Bytes) : LoadResult :=
  let s := startParsingPDF cache inst (some buffer)
  { cache := cache, inst := s.inst, engineBytes := s.engineBytes,
    emits := [], reads := 0, parsing := true }

/-- A low-level signal emitted by the engine handle `#PDFJS`. -/
inductive EngineEvent where
  | parseDataReady (payload : Option Obj)
  | parseDataError (detail : String)
deriving DecidableEq, Repr

/-- Run the handler attached for one engine event, once. -/
def applyHandler (ev : EngineEvent) (inst : Instance) : Instance × List Emit :=
  match ev with
  | EngineEvent.parseDataReady p => onPDFJSParseDataReady inst p
  | EngineEvent.parseDataError e => onPDFJSParserDataError inst e

/-- `EventEmitter` dispatch: run the event's handler once per attached
listener, in attachment order. -/
def applyHandlers (ev : EngineEvent) (inst : Instance) : Nat → Instance × List Emit
  | 0 => (inst, [])
  | n + 1 =>
      let r1 := applyHandler ev inst
      let r2 := applyHandlers ev r1.1 n
      (r2.1, r1.2 ++ r2.2)

/-- The engine emits one event: every attached handler pair runs. -/
def dispatch (inst : Instance) (ev : EngineEvent) : Instance × List Emit :=
  applyHandlers ev inst inst.listeners

/-- The engine emits a sequence of events. -/
def runEngine (inst : Instance) : List EngineEvent → Instance × List Emit
  | [] => (inst, [])
  | ev :: evs =>
      let r1 := dispatch inst ev
      let r2 := runEngine r1.1 evs
      (r2.1, r1.2 ++ r2.2)

/-- How one engine session ends: the terminal `null` marker or an error. -/
inductive Terminal where
  | done
  | failed (detail : String)
deriving DecidableEq, Repr

/-- The engine contract for one session: incremental payloads followed by
exactly one terminal signal. -/
def sessionTrace (payloads : List Obj) (t : Terminal) : List EngineEvent :=
  payloads.map (fun d => EngineEvent.parseDataReady (some d)) ++
  [match t with
   | Terminal.done => EngineEvent.parseDataReady none
   | Terminal.failed e => EngineEvent.parseDataError e]

/-- Signals a `loadPDF` call emits over its whole session: the read-error
emission, then — only if parsing started — the bridged engine trace. -/
def loadSessionEmits (cache : Cache) (inst : Instance) (path : String)
    (mtime : Nat) (readResult : Except String Bytes) (payloads : List Obj)
    (t : Terminal) : List Emit :=
  let L := loadPDF cache inst path mtime readResult
  L.emits ++ (if L.parsing then (runEngine L.inst (sessionTrace payloads t)).2 else [])

/-- Signals emitted over one whole `parseBuffer` session. -/
def parseBufferSessionEmits (cache : Cache) (inst : Instance) (buffer : Bytes)
    (payloads : List Obj) (t : Terminal) : List Emit :=
  let L := parseBuffer cache inst buffer
  L.emits ++ (if L.parsing then (runEngine L.inst (sessionTrace payloads t)).2 else [])

/-- Number of `pdfParser_dataReady` emissions. -/
def countReady (es : List Emit) : Nat :=
  es.countP (fun e => match e with | Emit.dataReady _ => true | _ => false)

/-- Number of `pdfParser_dataError` emissions. -/
def countError (es : List Emit) : Nat :=
  es.countP (fun e => match e with | Emit.dataError _ => true | _ => false)

/-- The constructor (src/pdfparser.js:30-50): takes the current process-wide
`PDFParser.#nextId` and post-increments it; path, mtime and data start null
and no engine listeners are attached yet. -/
def construct (nextId : Nat) : Nat × Instance :=
  (nextId + 1,
   { id := nextId, pdfFilePath := none, pdfFileMTime := none,
     data := none, listeners := 0 })

/-- Construct `n` instances in creation order, starting from allocator
state `next`. -/
def constructMany (next : Nat) : Nat → Nat × List Instance
  | 0 => (next, [])
  | n + 1 =>
      let r := construct next
      let rs := constructMany r.1 n
      (rs.1, r.2 :: rs.2)

/-- A fresh instance with a given allocated id. -/
def mkInstance (id : Nat) : Instance :=
  (construct id).2

/-- One load request of a sequential load history: the requesting instance's
id, the path, the mtime snapshot, and the outcome of the disk read. -/
structure LoadOp where
  instId : Nat
  path : String
  mtime : Nat
  readResult : Except String Bytes
deriving Repr

/-- Run a sequence of loads against the shared cache, each on a fresh
instance with the given id, sequentially: each load's read task completes
before the next load starts. -/
def runLoads (cache : Cache) : List LoadOp → Cache
  | [] => cache
  | op :: ops =>
      runLoads (loadPDF cache (mkInstance op.instId) op.path op.mtime op.readResult).cache ops

/-- Specification-side reading of "later keys overwrite earlier ones": the
value assigned to `k` by the latest payload that mentions it. -/
def lastVal (ps : List Obj) (k : String) : Option JVal :=
  match ps with
  | [] => none
  | o :: t =>
      match lastVal t k with
      | some v => some v
      | none => objLookup o k

/-- Eleven sequential loads of pairwise distinct paths whose reads all
succeed. -/
def elevenLoads : List LoadOp :=
  [⟨0, "a", 0, Except.ok [0]⟩, ⟨0, "b", 0, Except.ok [1]⟩,
   ⟨0, "c", 0, Except.ok [2]⟩, ⟨0, "d", 0, Except.ok [3]⟩,
   ⟨0, "e", 0, Except.ok [4]⟩, ⟨0, "f", 0, Except.ok [5]⟩,
   ⟨0, "g", 0, Except.ok [6]⟩, ⟨0, "h", 0, Except.ok [7]⟩,
   ⟨0, "i", 0, Except.ok [8]⟩, ⟨0, "j", 0, Except.ok [9]⟩,
   ⟨0, "k", 0, Except.ok [10]⟩]

/-- A cache state holding eleven entries with pairwise distinct keys (one
more than `maxBinBufferCount`, as reached by `elevenLoads`). -/
def cache11 : Cache :=
  [("k0", [0]), ("k1", [1]), ("k2", [2]), ("k3", [3]), ("k4", [4]),
   ("k5", [5]), ("k6", [6]), ("k7", [7]), ("k8", [8]), ("k9", [9]),
   ("k10", [10])]

/-! ## Library of facts about the cache operations -/

theorem hasKey_cachePut_self (c : Cache) (k : Key) (v : Bytes) :
    hasKey (cachePut c k v) k = true := by
  induction c with
  | nil => simp [cachePut, hasKey]
  | cons p t ih =>
      by_cases h : p.1 = k
      · simp [cachePut, hasKey, h]
      · simp only [cachePut, beq_iff_eq, h, if_false]
        simpa [hasKey] using Or.inr (by simpa [hasKey] using ih)

theorem length_cachePut_of_hasKey (c : Cache) (k : Key) (v : Bytes)
    (h : hasKey c k = true) : (cachePut c k v).length = c.length := by
  induction c with
  | nil => simp [hasKey] at h
  | cons p t ih =>
      by_cases hp : p.1 = k
      · simp [cachePut, hp]
      · have ht : hasKey t k = true := by
          simpa [hasKey, hp] using h
        simp [cachePut, beq_iff_eq, hp, ih ht]

theorem length_cachePut_of_not_hasKey (c : Cache) (k : Key) (v : Bytes)
    (h : hasKey c k = false) : (cachePut c k v).length = c.length + 1 := by
  induction c with
  | nil => simp [cachePut]
  | cons p t ih =>
      have hp : ¬ p.1 = k := by
        intro he; simp [hasKey, he] at h
      have ht : hasKey t k = false := by
        simpa [hasKey, hp] using h
      simp [cachePut, beq_iff_eq, hp, ih ht]

theorem mem_keys_cachePut (c : Cache) (k x : Key) (v : Bytes) :
    x ∈ cacheKeys (cachePut c k v) ↔ x ∈ cacheKeys c ∨ x = k := by
  induction c with
  | nil => simp [cachePut, cacheKeys]
  | cons p t ih =>
      by_cases hp : p.1 = k
      · subst hp
        simp [cachePut, cacheKeys]
        tauto
      · simp only [cachePut, beq_iff_eq, hp, if_false]
        simp [cacheKeys] at ih ⊢
        tauto

theorem nodup_keys_cachePut (c : Cache) (k : Key) (v : Bytes)
    (h : (cacheKeys c).Nodup) : (cacheKeys (cachePut c k v)).Nodup := by
  induction c with
  | nil => simp [cachePut, cacheKeys]
  | cons p t ih =>
      rw [cacheKeys, List.map_cons, List.nodup_cons] at h
      by_cases hp : p.1 = k
      · subst hp
        simpa [cachePut, cacheKeys, List.nodup_cons] using h
      · have h1 : p.1 ∉ cacheKeys (cachePut t k v) := by
          rw [mem_keys_cachePut]
          rintro (hmem | he)
          · exact h.1 (by simpa [cacheKeys] using hmem)
          · exact hp he
        simp only [cachePut, beq_iff_eq, hp, if_false]
        have hk : cacheKeys (p :: cachePut t k v) = p.1 :: cacheKeys (cachePut t k v) := rfl
        rw [hk, List.nodup_cons]
        exact ⟨h1, ih h.2⟩

theorem hasKey_cacheDelete_of_not (c : Cache) (k k' : Key)
    (h : hasKey c k = false) : hasKey (cacheDelete c k') k = false := by
  induction c with
  | nil => simp [cacheDelete, h]
  | cons p t ih =>
      have hp : ¬ p.1 = k := by
        intro he; simp [hasKey, he] at h
      have ht : hasKey t k = false := by
        simpa [hasKey, hp] using h
      by_cases hd : p.1 = k'
      · simpa [cacheDelete, hd] using ht
      · simp only [cacheDelete, beq_iff_eq, hd, if_false]
        simpa [hasKey, hp] using ih ht

theorem length_cacheDelete_of_hasKey (c : Cache) (k : Key)
    (h : hasKey c k = true) : (cacheDelete c k).length + 1 = c.length := by
  induction c with
  | nil => simp [hasKey] at h
  | cons p t ih =>
      by_cases hp : p.1 = k
      · simp [cacheDelete, hp]
      · have ht : hasKey t k = true := by
          simpa [hasKey, hp] using h
        simp [cacheDelete, beq_iff_eq, hp, ih ht]

theorem mem_keys_cacheDelete (c : Cache) (k x : Key)
    (h : x ∈ cacheKeys (cacheDelete c k)) : x ∈ cacheKeys c := by
  induction c with
  | nil => simpa [cacheDelete] using h
  | cons p t ih =>
      by_cases hd : p.1 = k
      · simp only [cacheDelete, beq_iff_eq, hd, if_true] at h
        simp [cacheKeys] at h ⊢
        tauto
      · simp only [cacheDelete, beq_iff_eq, hd, if_false] at h
        simp [cacheKeys] at h ⊢
        rcases h with h | h
        · exact Or.inl h
        · exact Or.inr (by simpa [cacheKeys] using ih (by simpa [cacheKeys] using h))

theorem nodup_keys_cacheDelete (c : Cache) (k : Key)
    (h : (cacheKeys c).Nodup) : (cacheKeys (cacheDelete c k)).Nodup := by
  induction c with
  | nil => simpa [cacheDelete] using h
  | cons p t ih =>
      rw [cacheKeys, List.map_cons, List.nodup_cons] at h
      by_cases hd : p.1 = k
      · simpa [cacheDelete, hd, cacheKeys] using h.2
      · have h1 : p.1 ∉ cacheKeys (cacheDelete t k) :=
          fun hmem => h.1 (mem_keys_cacheDelete t k p.1 hmem)
        simp only [cacheDelete, beq_iff_eq, hd, if_false]
        have hk : cacheKeys (p :: cacheDelete t k) = p.1 :: cacheKeys (cacheDelete t k) := rfl
        rw [hk, List.nodup_cons]
        exact ⟨h1, ih h.2⟩

theorem hasKey_of_keys_get? (c : Cache) (i : Nat) (k : Key)
    (h : (cacheKeys c).get? i = some k) : hasKey c k = true := by
  have hmem : k ∈ cacheKeys c := List.get?_mem h
  rcases List.mem_map.mp hmem with ⟨p, hp, he⟩
  simp only [hasKey, List.any_eq_true]
  exact ⟨p, hp, by simp [he]⟩

theorem cacheDelete_eq_eraseIdx (c : Cache) (i : Nat) (k : Key)
    (hn : (cacheKeys c).Nodup) (h : (cacheKeys c).get? i = some k) :
    cacheDelete c k = c.eraseIdx i := by
  induction c generalizing i with
  | nil => simp [cacheKeys] at h
  | cons p t ih =>
      rw [cacheKeys, List.map_cons, List.nodup_cons] at hn
      match i with
      | 0 =>
          have : p.1 = k := by simpa [cacheKeys] using h
          simp [cacheDelete, this, List.eraseIdx]
      | Nat.succ j =>
          have ht : (cacheKeys t).get? j = some k := by
            simpa [cacheKeys] using h
          have hkmem : k ∈ cacheKeys t := List.get?_mem ht
          have hp : ¬ p.1 = k := fun he => hn.1 (he ▸ hkmem)
          simp only [cacheDelete, beq_iff_eq, hp, if_false, List.eraseIdx]
          exact congrArg (p :: ·) (ih j hn.2 ht)

/-! ## Library of facts about event dispatch -/

theorem applyHandler_listeners (ev : EngineEvent) (i : Instance) :
    (applyHandler ev i).1.listeners = i.listeners := by
  cases ev with
  | parseDataReady p => cases p <;> rfl
  | parseDataError e => rfl

theorem applyHandlers_listeners (ev : EngineEvent) (i : Instance) (n : Nat) :
    (applyHandlers ev i n).1.listeners = i.listeners := by
  induction n generalizing i with
  | zero => rfl
  | succ m ih =>
      show (applyHandlers ev (applyHandler ev i).1 m).1.listeners = i.listeners
      rw [ih, applyHandler_listeners]

theorem applyHandlers_ready_some (i : Instance) (d : Obj) (n : Nat) :
    (applyHandlers (EngineEvent.parseDataReady (some d)) i n).2 = [] := by
  induction n generalizing i with
  | zero => rfl
  | succ m ih =>
      show (applyHandler (EngineEvent.parseDataReady (some d)) i).2 ++
          (applyHandlers (EngineEvent.parseDataReady (some d))
            (applyHandler (EngineEvent.parseDataReady (some d)) i).1 m).2 = []
      rw [ih]
      rfl

theorem applyHandlers_ready_none (i : Instance) (n : Nat) :
    applyHandlers (EngineEvent.parseDataReady none) i n =
      (i, List.replicate n (Emit.dataReady i.data)) := by
  induction n with
  | zero => rfl
  | succ m ih =>
      calc applyHandlers (EngineEvent.parseDataReady none) i (m + 1)
          = ((applyHandlers (EngineEvent.parseDataReady none) i m).1,
             [Emit.dataReady i.data] ++
               (applyHandlers (EngineEvent.parseDataReady none) i m).2) := rfl
        _ = (i, List.replicate (m + 1) (Emit.dataReady i.data)) := by rw [ih]; rfl

theorem applyHandlers_error (i : Instance) (e : String) (n : Nat) :
    applyHandlers (EngineEvent.parseDataError e) i n =
      ((if n = 0 then i else { i with data := none }),
       List.replicate n (Emit.dataError (ErrPayload.parserError e))) := by
  induction n generalizing i with
  | zero => rfl
  | succ m ih =>
      calc applyHandlers (EngineEvent.parseDataError e) i (m + 1)
          = ((applyHandlers (EngineEvent.parseDataError e) { i with data := none } m).1,
             [Emit.dataError (ErrPayload.parserError e)] ++
               (applyHandlers (EngineEvent.parseDataError e) { i with data := none } m).2) := rfl
        _ = _ := by
              rw [ih]
              cases m <;> rfl

theorem runEngine_append (i : Instance) (l1 l2 : List EngineEvent) :
    runEngine i (l1 ++ l2) =
      ((runEngine (runEngine i l1).1 l2).1,
       (runEngine i l1).2 ++ (runEngine (runEngine i l1).1 l2).2) := by
  induction l1 generalizing i with
  | nil => rfl
  | cons ev t ih =>
      show ((runEngine (dispatch i ev).1 (t ++ l2)).1,
            (dispatch i ev).2 ++ (runEngine (dispatch i ev).1 (t ++ l2)).2) = _
      rw [ih]
      show (_, (dispatch i ev).2 ++
            ((runEngine (dispatch i ev).1 t).2 ++
             (runEngine (runEngine (dispatch i ev).1 t).1 l2).2)) = _
      rw [← List.append_assoc]
      rfl

theorem runEngine_listeners (i : Instance) (evs : List EngineEvent) :
    (runEngine i evs).1.listeners = i.listeners := by
  induction evs generalizing i with
  | nil => rfl
  | cons ev t ih =>
      show (runEngine (dispatch i ev).1 t).1.listeners = i.listeners
      rw [ih]
      exact applyHandlers_listeners ev i i.listeners

theorem runEngine_payloads_emits (i : Instance) (ps : List Obj) :
    (runEngine i (ps.map (fun d => EngineEvent.parseDataReady (some d)))).2 = [] := by
  induction ps generalizing i with
  | nil => rfl
  | cons d t ih =>
      show (dispatch i (EngineEvent.parseDataReady (some d))).2 ++
          (runEngine (dispatch i (EngineEvent.parseDataReady (some d))).1
            (t.map (fun d => EngineEvent.parseDataReady (some d)))).2 = []
      rw [ih, dispatch, applyHandlers_ready_some]
      rfl

theorem dispatch_ready_some_of_one (i : Instance) (d : Obj)
    (hl : i.listeners = 1) :
    dispatch i (EngineEvent.parseDataReady (some d)) =
      ({ i with data := some (jsMerge (i.data.getD []) d) }, []) := by
  have h1 : dispatch i (EngineEvent.parseDataReady (some d)) =
      applyHandlers (EngineEvent.parseDataReady (some d)) i 1 := by
    rw [dispatch, hl]
  rw [h1]
  rfl

theorem runEngine_payloads_data (i : Instance) (o : Obj) (ps : List Obj)
    (hl : i.listeners = 1) (hd : i.data = some o) :
    (runEngine i (ps.map (fun d => EngineEvent.parseDataReady (some d)))).1.data =
      some (ps.foldl jsMerge o) := by
  induction ps generalizing i o with
  | nil => simpa using hd
  | cons d t ih =>
      show (runEngine (dispatch i (EngineEvent.parseDataReady (some d))).1
            (t.map (fun d => EngineEvent.parseDataReady (some d)))).1.data = _
      rw [dispatch_ready_some_of_one i d hl]
      exact ih _ (jsMerge o d) hl (by simp [hd])

/-! ## Library of facts about the shallow merge -/

theorem objLookup_cons_pos (p : String × JVal) (t : Obj) (k : String)
    (h : p.1 = k) : objLookup (p :: t) k = some p.2 := by
  have hb : (p.1 == k) = true := by simp [h]
  simp [objLookup, List.find?_cons, hb]

theorem objLookup_cons_neg (p : String × JVal) (t : Obj) (k : String)
    (h : ¬ p.1 = k) : objLookup (p :: t) k = objLookup t k := by
  have hb : (p.1 == k) = false := by simp [h]
  simp [objLookup, List.find?_cons, hb]

theorem objLookup_append (a b : Obj) (k : String) :
    objLookup (a ++ b) k =
      match objLookup a k with
      | some v => some v
      | none => objLookup b k := by
  induction a with
  | nil => rfl
  | cons p t ih =>
      rw [List.cons_append]
      by_cases hp : p.1 = k
      · rw [objLookup_cons_pos _ _ k hp, objLookup_cons_pos p t k hp]
      · rw [objLookup_cons_neg _ _ k hp, objLookup_cons_neg p t k hp, ih]

theorem objLookup_jsMerge_left (a b : Obj) (k : String) :
    objLookup (a.map (fun p =>
        match b.find? (fun q => q.1 == p.1) with
        | some q => (p.1, q.2)
        | none => p)) k =
      match objLookup a k with
      | none => none
      | some v =>
          match objLookup b k with
          | some w => some w
          | none => some v := by
  induction a with
  | nil => rfl
  | cons p t ih =>
      simp only [List.map_cons]
      by_cases hp : p.1 = k
      · subst hp
        cases hb : b.find? (fun (q : String × JVal) => q.1 == p.1) with
        | none =>
            have hbl : objLookup b p.1 = none := by
              rw [objLookup, hb]; rfl
            simp only [hb]
            rw [objLookup_cons_pos p _ p.1 rfl, objLookup_cons_pos p t p.1 rfl, hbl]
        | some q =>
            have hbl : objLookup b p.1 = some q.2 := by
              rw [objLookup, hb]; rfl
            simp only [hb]
            rw [objLookup_cons_pos (p.1, q.2) _ p.1 rfl, objLookup_cons_pos p t p.1 rfl,
              hbl]
      · have hkey : ∀ x : String × JVal,
            b.find? (fun q => q.1 == p.1) = some x →
              ¬ (p.1, x.2).1 = k := fun _ _ => hp
        cases hb : b.find? (fun (q : String × JVal) => q.1 == p.1) with
        | none =>
            simp only [hb]
            rw [objLookup_cons_neg p _ k hp, objLookup_cons_neg p t k hp, ih]
        | some q =>
            simp only [hb]
            rw [objLookup_cons_neg (p.1, q.2) _ k (hkey q hb),
              objLookup_cons_neg p t k hp, ih]

theorem objLookup_jsMerge_right_of_has (a b : Obj) (k : String)
    (h : a.any (fun p => p.1 == k) = true) :
    objLookup (b.filter (fun q => ! a.any (fun p => p.1 == q.1))) k = none := by
  induction b with
  | nil => rfl
  | cons q bt ih =>
      rw [List.filter_cons]
      by_cases hq : q.1 = k
      · have hpred : (! a.any (fun p => p.1 == q.1)) = false := by
          rw [hq, h]; rfl
        simp only [hpred, Bool.false_eq_true, if_false]
        exact ih
      · cases hpred : (! a.any (fun p => p.1 == q.1)) with
        | false =>
            simp only [hpred, Bool.false_eq_true, if_false]
            exact ih
        | true =>
            simp only [hpred, if_true]
            rw [objLookup_cons_neg q _ k hq]
            exact ih

theorem objLookup_jsMerge_right_of_not (a b : Obj) (k : String)
    (h : a.any (fun p => p.1 == k) = false) :
    objLookup (b.filter (fun q => ! a.any (fun p => p.1 == q.1))) k =
      objLookup b k := by
  induction b with
  | nil => rfl
  | cons q bt ih =>
      rw [List.filter_cons]
      by_cases hq : q.1 = k
      · have hpred : (! a.any (fun p => p.1 == q.1)) = true := by
          rw [hq, h]; rfl
        simp only [hpred, if_true]
        rw [objLookup_cons_pos q _ k hq, objLookup_cons_pos q bt k hq]
      · cases hpred : (! a.any (fun p => p.1 == q.1)) with
        | true =>
            simp only [hpred, if_true]
            rw [objLookup_cons_neg q _ k hq, objLookup_cons_neg q bt k hq, ih]
        | false =>
            simp only [hpred, Bool.false_eq_true, if_false]
            rw [ih, objLookup_cons_neg q bt k hq]

theorem objLookup_any_eq_none (a : Obj) (k : String)
    (h : a.any (fun p => p.1 == k) = false) : objLookup a k = none := by
  rw [objLookup]
  have hf : a.find? (fun p => p.1 == k) = none := by
    rw [List.find?_eq_none]
    intro x hx
    rw [List.any_eq_false] at h
    simpa using h x hx
  rw [hf]
  rfl

theorem objLookup_any_eq_some (a : Obj) (k : String)
    (h : a.any (fun p => p.1 == k) = true) : ∃ v, objLookup a k = some v := by
  induction a with
  | nil => simp at h
  | cons p t ih =>
      by_cases hp : p.1 = k
      · exact ⟨p.2, objLookup_cons_pos p t k hp⟩
      · have ht : t.any (fun p => p.1 == k) = true := by
          simpa [List.any_cons, hp] using h
        rcases ih ht with ⟨v, hv⟩
        exact ⟨v, by rw [objLookup_cons_neg p t k hp]; exact hv⟩

theorem objLookup_jsMerge (a b : Obj) (k : String) :
    objLookup (jsMerge a b) k =
      match objLookup b k with
      | some v => some v
      | none => objLookup a k := by
  rw [jsMerge, objLookup_append, objLookup_jsMerge_left]
  cases ha : a.any (fun p => p.1 == k) with
  | true =>
      rw [objLookup_jsMerge_right_of_has a b k ha]
      rcases objLookup_any_eq_some a k ha with ⟨v, hv⟩
      rw [hv]
      cases objLookup b k <;> rfl
  | false =>
      rw [objLookup_jsMerge_right_of_not a b k ha,
        objLookup_any_eq_none a k ha]
      cases objLookup b k <;> rfl

theorem objLookup_foldl_jsMerge (ps : List Obj) (init : Obj) (k : String) :
    objLookup (ps.foldl jsMerge init) k =
      match lastVal ps k with
      | some v => some v
      | none => objLookup init k := by
  induction ps generalizing init with
  | nil => rfl
  | cons o t ih =>
      show objLookup (t.foldl jsMerge (jsMerge init o)) k = _
      rw [ih, objLookup_jsMerge]
      cases h1 : lastVal t k <;> cases h2 : objLookup o k <;>
        simp [lastVal, h1, h2]

/-! ## Session-level emission structure -/

theorem runEngine_single (i : Instance) (ev : EngineEvent) :
    runEngine i [ev] = ((dispatch i ev).1, (dispatch i ev).2 ++ []) := rfl

theorem sessionTrace_done (ps : List Obj) :
    sessionTrace ps Terminal.done =
      ps.map (fun d => EngineEvent.parseDataReady (some d)) ++
        [EngineEvent.parseDataReady none] := rfl

theorem sessionTrace_failed (ps : List Obj) (e : String) :
    sessionTrace ps (Terminal.failed e) =
      ps.map (fun d => EngineEvent.parseDataReady (some d)) ++
        [EngineEvent.parseDataError e] := rfl

theorem runEngine_sessionTrace_emits (i : Instance) (ps : List Obj) (t : Terminal) :
    (runEngine i (sessionTrace ps t)).2 =
      match t with
      | Terminal.done =>
          List.replicate i.listeners (Emit.dataReady
            (runEngine i (ps.map (fun d => EngineEvent.parseDataReady (some d)))).1.data)
      | Terminal.failed e =>
          List.replicate i.listeners (Emit.dataError (ErrPayload.parserError e)) := by
  have hl : (runEngine i (ps.map (fun d => EngineEvent.parseDataReady (some d)))).1.listeners
      = i.listeners := runEngine_listeners i _
  cases t with
  | done =>
      rw [sessionTrace_done, runEngine_append, runEngine_payloads_emits,
        runEngine_single, dispatch, applyHandlers_ready_none]
      simp [hl]
  | failed e =>
      rw [sessionTrace_failed, runEngine_append, runEngine_payloads_emits,
        runEngine_single, dispatch, applyHandlers_error]
      simp [hl]

theorem runEngine_sessionTrace_failed_data (i : Instance) (ps : List Obj)
    (e : String) (hl : 1 ≤ i.listeners) :
    (runEngine i (sessionTrace ps (Terminal.failed e))).1.data = none := by
  have hll : (runEngine i (ps.map (fun d => EngineEvent.parseDataReady (some d)))).1.listeners
      = i.listeners := runEngine_listeners i _
  rw [sessionTrace_failed, runEngine_append, runEngine_single, dispatch,
    applyHandlers_error, hll]
  have hne : ¬ i.listeners = 0 := by omega
  rw [if_neg hne]

theorem countReady_append (a b : List Emit) :
    countReady (a ++ b) = countReady a + countReady b :=
  List.countP_append _ a b

theorem countError_append (a b : List Emit) :
    countError (a ++ b) = countError a + countError b :=
  List.countP_append _ a b

theorem countReady_replicate_ready (n : Nat) (d : Option Obj) :
    countReady (List.replicate n (Emit.dataReady d)) = n := by
  rw [countReady, List.countP_replicate]
  simp

theorem countError_replicate_ready (n : Nat) (d : Option Obj) :
    countError (List.replicate n (Emit.dataReady d)) = 0 := by
  rw [countError, List.countP_replicate]
  simp

theorem countReady_replicate_error (n : Nat) (p : ErrPayload) :
    countReady (List.replicate n (Emit.dataError p)) = 0 := by
  rw [countReady, List.countP_replicate]
  simp

theorem countError_replicate_error (n : Nat) (p : ErrPayload) :
    countError (List.replicate n (Emit.dataError p)) = n := by
  rw [countError, List.countP_replicate]
  simp

/-! ## Cache evolution of loadPDF -/

theorem processPDFContent_error (c : Cache) (i : Instance) (e : String) :
    processPDFContent c i (Except.error e) =
      (c, { i with data := none }, none, [Emit.dataError (ErrPayload.raw e)]) := rfl

theorem processPDFContent_ok (c : Cache) (i : Instance) (d : Bytes) :
    processPDFContent c i (Except.ok d) =
      (cachePut c (binBufferKey i) d,
       (startParsingPDF (cachePut c (binBufferKey i) d) i none).inst,
       (startParsingPDF (cachePut c (binBufferKey i) d) i none).engineBytes,
       []) := rfl

theorem processBinaryCache_hit (c : Cache) (i : Instance)
    (hk : hasKey c (binBufferKey i) = true) :
    processBinaryCache c i =
      { cache := c, inst := (startParsingPDF c i none).inst,
        engineBytes := (startParsingPDF c i none).engineBytes, hit := true } := by
  rw [processBinaryCache, if_pos hk]

theorem processBinaryCache_miss (c : Cache) (i : Instance)
    (hk : hasKey c (binBufferKey i) = false) :
    processBinaryCache c i =
      { cache :=
          if (cacheKeys c).length > maxBinBufferCount then
            match (cacheKeys c).get? (i.id % maxBinBufferCount) with
            | some key => cacheDelete c key
            | none => c
          else c,
        inst := i, engineBytes := none, hit := false } := by
  rw [processBinaryCache, if_neg (by simp [hk])]

theorem processBinaryCache_miss_bound (c : Cache) (i : Instance)
    (hk : hasKey c (binBufferKey i) = false)
    (hn : (cacheKeys c).Nodup) (hb : c.length ≤ maxBinBufferCount + 1) :
    (cacheKeys (processBinaryCache c i).cache).Nodup ∧
      (processBinaryCache c i).cache.length ≤ maxBinBufferCount ∧
      hasKey (processBinaryCache c i).cache (binBufferKey i) = false := by
  rw [processBinaryCache_miss c i hk]
  by_cases hlen : (cacheKeys c).length > maxBinBufferCount
  · have hidx : i.id % maxBinBufferCount < (cacheKeys c).length := by
      have h1 : i.id % maxBinBufferCount < maxBinBufferCount :=
        Nat.mod_lt _ (by decide)
      omega
    have hget := List.get?_eq_get hidx
    simp only [hlen, if_true, hget]
    have hmem : hasKey c ((cacheKeys c).get ⟨i.id % maxBinBufferCount, hidx⟩) = true :=
      hasKey_of_keys_get? c _ _ hget
    have hlc : c.length = (cacheKeys c).length := by
      simp [cacheKeys]
    refine ⟨nodup_keys_cacheDelete c _ hn, ?_, hasKey_cacheDelete_of_not c _ _ hk⟩
    have hdel := length_cacheDelete_of_hasKey c _ hmem
    omega
  · simp only [hlen, if_false]
    have hlc : c.length = (cacheKeys c).length := by simp [cacheKeys]
    exact ⟨hn, by omega, hk⟩

theorem loadPDF_cache_bound (c : Cache) (i : Instance) (p : String) (m : Nat)
    (r : Except String Bytes)
    (hn : (cacheKeys c).Nodup) (hb : c.length ≤ maxBinBufferCount + 1) :
    (cacheKeys (loadPDF c i p m r).cache).Nodup ∧
      (loadPDF c i p m r).cache.length ≤ maxBinBufferCount + 1 := by
  rw [loadPDF]
  by_cases hk : hasKey c
      (binBufferKey { i with pdfFilePath := some p, pdfFileMTime := some m }) = true
  · rw [processBinaryCache_hit c _ hk]
    exact ⟨hn, hb⟩
  · have hk' : hasKey c
        (binBufferKey { i with pdfFilePath := some p, pdfFileMTime := some m }) = false := by
      cases hx : hasKey c
          (binBufferKey { i with pdfFilePath := some p, pdfFileMTime := some m })
      · rfl
      · exact absurd hx hk
    rcases processBinaryCache_miss_bound c _ hk' hn hb with ⟨h1, h2, h3⟩
    have hhit : (processBinaryCache c
        { i with pdfFilePath := some p, pdfFileMTime := some m }).hit = false := by
      rw [processBinaryCache_miss c _ hk']
    have hinst : (processBinaryCache c
        { i with pdfFilePath := some p, pdfFileMTime := some m }).inst =
        { i with pdfFilePath := some p, pdfFileMTime := some m } := by
      rw [processBinaryCache_miss c _ hk']
    simp only [hhit, Bool.false_eq_true, if_false]
    cases r with
    | error e =>
        simp only [processPDFContent_error]
        exact ⟨h1, by omega⟩
    | ok d =>
        simp only [processPDFContent_ok, hinst]
        constructor
        · exact nodup_keys_cachePut _ _ _ h1
        · rw [length_cachePut_of_not_hasKey _ _ _ h3]
          omega

theorem runLoads_bound (ops : List LoadOp) (c : Cache)
    (hn : (cacheKeys c).Nodup) (hb : c.length ≤ maxBinBufferCount + 1) :
    (cacheKeys (runLoads c ops)).Nodup ∧
      (runLoads c ops).length ≤ maxBinBufferCount + 1 := by
  induction ops generalizing c with
  | nil => exact ⟨hn, hb⟩
  | cons op t ih =>
      rcases loadPDF_cache_bound c (mkInstance op.instId) op.path op.mtime
        op.readResult hn hb with ⟨h1, h2⟩
      exact ih _ h1 h2

theorem startParsingPDF_inst (c : Cache) (i : Instance) (b : Option Bytes) :
    (startParsingPDF c i b).inst =
      { i with data := some [], listeners := i.listeners + 1 } := rfl

theorem startParsingPDF_engineBytes_none (c : Cache) (i : Instance) :
    (startParsingPDF c i none).engineBytes = cacheGet c (binBufferKey i) := rfl

theorem loadPDF_hit (c : Cache) (i : Instance) (p : String) (m : Nat)
    (r : Except String Bytes)
    (hk : hasKey c (binBufferKey
      { i with pdfFilePath := some p, pdfFileMTime := some m }) = true) :
    loadPDF c i p m r =
      { cache := c,
        inst := (startParsingPDF c
          { i with pdfFilePath := some p, pdfFileMTime := some m } none).inst,
        engineBytes := cacheGet c
          (binBufferKey { i with pdfFilePath := some p, pdfFileMTime := some m }),
        emits := [], reads := 0, parsing := true } := by
  rw [loadPDF, processBinaryCache_hit c _ hk]
  rfl

theorem loadPDF_miss_error (c : Cache) (i : Instance) (p : String) (m : Nat)
    (e : String)
    (hk : hasKey c (binBufferKey
      { i with pdfFilePath := some p, pdfFileMTime := some m }) = false) :
    loadPDF c i p m (Except.error e) =
      { cache := (processBinaryCache c
          { i with pdfFilePath := some p, pdfFileMTime := some m }).cache,
        inst := { i with pdfFilePath := some p, pdfFileMTime := some m, data := none },
        engineBytes := none,
        emits := [Emit.dataError (ErrPayload.raw e)], reads := 1,
        parsing := false } := by
  rw [loadPDF, processBinaryCache_miss c _ hk]
  rfl

theorem loadPDF_miss_ok (c : Cache) (i : Instance) (p : String) (m : Nat)
    (d : Bytes)
    (hk : hasKey c (binBufferKey
      { i with pdfFilePath := some p, pdfFileMTime := some m }) = false) :
    loadPDF c i p m (Except.ok d) =
      { cache := cachePut (processBinaryCache c
            { i with pdfFilePath := some p, pdfFileMTime := some m }).cache
          (binBufferKey { i with pdfFilePath := some p, pdfFileMTime := some m }) d,
        inst := (startParsingPDF
          (cachePut (processBinaryCache c
              { i with pdfFilePath := some p, pdfFileMTime := some m }).cache
            (binBufferKey { i with pdfFilePath := some p, pdfFileMTime := some m }) d)
          { i with pdfFilePath := some p, pdfFileMTime := some m } none).inst,
        engineBytes := cacheGet
          (cachePut (processBinaryCache c
              { i with pdfFilePath := some p, pdfFileMTime := some m }).cache
            (binBufferKey { i with pdfFilePath := some p, pdfFileMTime := some m }) d)
          (binBufferKey { i with pdfFilePath := some p, pdfFileMTime := some m }),
        emits := [], reads := 1, parsing := true } := by
  rw [loadPDF, processBinaryCache_miss c _ hk]
  rfl

theorem loadSessionEmits_eq (c : Cache) (i : Instance) (p : String) (m : Nat)
    (r : Except String Bytes) (ps : List Obj) (t : Terminal) :
    loadSessionEmits c i p m r ps t =
      (loadPDF c i p m r).emits ++
        (if (loadPDF c i p m r).parsing then
          (runEngine (loadPDF c i p m r).inst (sessionTrace ps t)).2
        else []) := rfl

theorem parseBufferSessionEmits_eq (c : Cache) (i : Instance) (b : Bytes)
    (ps : List Obj) (t : Terminal) :
    parseBufferSessionEmits c i b ps t =
      (runEngine (parseBuffer c i b).inst (sessionTrace ps t)).2 := rfl

theorem sessionEmits_counts_done (i : Instance) (ps : List Obj) :
    countReady (runEngine i (sessionTrace ps Terminal.done)).2 = i.listeners ∧
      countError (runEngine i (sessionTrace ps Terminal.done)).2 = 0 := by
  rw [runEngine_sessionTrace_emits]
  exact ⟨countReady_replicate_ready _ _, countError_replicate_ready _ _⟩

theorem sessionEmits_counts_failed (i : Instance) (ps : List Obj) (e : String) :
    countReady (runEngine i (sessionTrace ps (Terminal.failed e))).2 = 0 ∧
      countError (runEngine i (sessionTrace ps (Terminal.failed e))).2 = i.listeners := by
  rw [runEngine_sessionTrace_emits]
  exact ⟨countReady_replicate_error _ _, countError_replicate_error _ _⟩

/-! ## Identity allocation -/

theorem constructMany_ids (n : Nat) : ∀ s : Nat,
    (constructMany s n).2.map (fun i => i.id) = List.range' s n := by
  induction n with
  | zero => intro s; rfl
  | succ m ih =>
      intro s
      show s :: (constructMany (s + 1) m).2.map (fun i => i.id) = s :: List.range' (s + 1) m
      rw [ih]

theorem loadSessionEmits_of_parsing (c : Cache) (i : Instance) (p : String)
    (m : Nat) (r : Except String Bytes) (ps : List Obj) (t : Terminal)
    (hp : (loadPDF c i p m r).parsing = true)
    (he : (loadPDF c i p m r).emits = []) :
    loadSessionEmits c i p m r ps t =
      (runEngine (loadPDF c i p m r).inst (sessionTrace ps t)).2 := by
  rw [loadSessionEmits_eq, hp, he]
  simp

theorem loadSessionEmits_of_not_parsing (c : Cache) (i : Instance) (p : String)
    (m : Nat) (r : Except String Bytes) (ps : List Obj) (t : Terminal)
    (hp : (loadPDF c i p m r).parsing = false) :
    loadSessionEmits c i p m r ps t = (loadPDF c i p m r).emits := by
  rw [loadSessionEmits_eq, hp]
  simp

theorem countReady_error_singleton (p : ErrPayload) :
    countReady [Emit.dataError p] = 0 := rfl

theorem countError_error_singleton (p : ErrPayload) :
    countError [Emit.dataError p] = 1 := rfl

/-! ## The claims -/

/-- C1: the claim "after inserting more than `maxEntries` (10) distinct cache
keys, the cache never holds more than `maxEntries` entries at rest (after each
load's eviction check and insert have completed)" is FALSE on the code: the
eviction check runs before the insert and only fires when the count already
exceeds the bound, so eleven sequential loads of distinct keys (all reads
succeeding) leave eleven entries in the cache at rest. -/
theorem c1_counterexample_eleven_distinct_loads :
    maxBinBufferCount < (runLoads [] elevenLoads).length := by decide

/-- C1 (amended): after any sequence of loads the shared cache at rest holds
at most `maxBinBufferCount + 1` entries (the bound can be exceeded by exactly
one entry, restored by the next miss's eviction check). -/
theorem c1_cache_size_bound (ops : List LoadOp) :
    (runLoads [] ops).length ≤ maxBinBufferCount + 1 :=
  (runLoads_bound ops [] (by simp [cacheKeys]) (by simp)).2

/-- C2: whenever `#processBinaryCache` runs its eviction step (cache miss
with the entry count strictly above `maxBinBufferCount`), exactly one entry
is removed, namely the one at index `id % maxBinBufferCount` of the cache's
current key list in insertion order. -/
theorem c2_eviction_removes_indexed_key (cache : Cache) (inst : Instance)
    (hmiss : hasKey cache (binBufferKey inst) = false)
    (hnodup : (cacheKeys cache).Nodup)
    (hover : cache.length > maxBinBufferCount) :
    (processBinaryCache cache inst).cache =
        cache.eraseIdx (inst.id % maxBinBufferCount) ∧
      (processBinaryCache cache inst).cache.length + 1 = cache.length := by
  have hlc : (cacheKeys cache).length = cache.length := by simp [cacheKeys]
  have hidx : inst.id % maxBinBufferCount < (cacheKeys cache).length := by
    have hm := Nat.mod_lt inst.id (show 0 < maxBinBufferCount by decide)
    omega
  have hget := List.get?_eq_get hidx
  have hcache : (processBinaryCache cache inst).cache =
      cacheDelete cache ((cacheKeys cache).get
        ⟨inst.id % maxBinBufferCount, hidx⟩) := by
    rw [processBinaryCache_miss cache inst hmiss]
    dsimp only
    rw [if_pos (by omega), hget]
  rw [hcache]
  exact ⟨cacheDelete_eq_eraseIdx cache _ _ hnodup hget,
    length_cacheDelete_of_hasKey cache _ (hasKey_of_keys_get? cache _ _ hget)⟩

/-- Witness for C2 at a concrete over-full cache and instance id 7. -/
theorem c2_eviction_witness :
    hasKey cache11 (binBufferKey (mkInstance 7)) = false ∧
    (cacheKeys cache11).Nodup ∧
    cache11.length > maxBinBufferCount ∧
    ((processBinaryCache cache11 (mkInstance 7)).cache =
        cache11.eraseIdx ((mkInstance 7).id % maxBinBufferCount) ∧
      (processBinaryCache cache11 (mkInstance 7)).cache.length + 1 =
        cache11.length) :=
  ⟨by decide, by decide, by decide,
   c2_eviction_removes_indexed_key cache11 (mkInstance 7)
     (by decide) (by decide) (by decide)⟩

/-- C3: the claim "for every load/parseBuffer invocation exactly one of
data-ready/data-error is emitted exactly once" is FALSE on the code for any
invocation after the first on the same instance: `#startParsingPDF` attaches
a fresh handler pair to the same engine handle on every session without
removing the old ones, so the second session's terminal marker emits
`pdfParser_dataReady` twice. -/
theorem c3_counterexample_second_session :
    countReady (parseBufferSessionEmits []
      (runEngine (parseBuffer [] (mkInstance 0) [1]).inst
        (sessionTrace [] Terminal.done)).1 [1] [] Terminal.done) = 2 ∧
    ¬ countReady (parseBufferSessionEmits []
      (runEngine (parseBuffer [] (mkInstance 0) [1]).inst
        (sessionTrace [] Terminal.done)).1 [1] [] Terminal.done) = 1 := by
  decide

/-- C3 (amended): for the FIRST session on a fresh instance (no engine
listeners attached yet), whether started by `parseBuffer` or by `loadPDF`
(any cache state and read outcome), data-ready and data-error are never both
emitted and exactly one of them is emitted exactly once. -/
theorem c3_first_session_terminal_exclusive (cache : Cache) (inst : Instance)
    (buffer : Bytes) (path : String) (mtime : Nat) (rr : Except String Bytes)
    (ps : List Obj) (t : Terminal) (hfresh : inst.listeners = 0) :
    ((countReady (parseBufferSessionEmits cache inst buffer ps t) = 1 ∧
      countError (parseBufferSessionEmits cache inst buffer ps t) = 0) ∨
     (countReady (parseBufferSessionEmits cache inst buffer ps t) = 0 ∧
      countError (parseBufferSessionEmits cache inst buffer ps t) = 1)) ∧
    ((countReady (loadSessionEmits cache inst path mtime rr ps t) = 1 ∧
      countError (loadSessionEmits cache inst path mtime rr ps t) = 0) ∨
     (countReady (loadSessionEmits cache inst path mtime rr ps t) = 0 ∧
      countError (loadSessionEmits cache inst path mtime rr ps t) = 1)) := by
  constructor
  · rw [parseBufferSessionEmits_eq]
    have hl1 : (parseBuffer cache inst buffer).inst.listeners = 1 := by
      show inst.listeners + 1 = 1
      rw [hfresh]
    cases t with
    | done =>
        left
        have h := sessionEmits_counts_done (parseBuffer cache inst buffer).inst ps
        rw [hl1] at h
        exact h
    | failed e =>
        right
        have h := sessionEmits_counts_failed (parseBuffer cache inst buffer).inst ps e
        rw [hl1] at h
        exact h
  · by_cases hk : hasKey cache (binBufferKey
        { inst with pdfFilePath := some path, pdfFileMTime := some mtime }) = true
    · have hp : (loadPDF cache inst path mtime rr).parsing = true := by
        rw [loadPDF_hit cache inst path mtime rr hk]
      have he : (loadPDF cache inst path mtime rr).emits = [] := by
        rw [loadPDF_hit cache inst path mtime rr hk]
      have hl1 : (loadPDF cache inst path mtime rr).inst.listeners = 1 := by
        rw [loadPDF_hit cache inst path mtime rr hk]
        show inst.listeners + 1 = 1
        rw [hfresh]
      rw [loadSessionEmits_of_parsing _ _ _ _ _ _ _ hp he]
      cases t with
      | done =>
          left
          have h := sessionEmits_counts_done (loadPDF cache inst path mtime rr).inst ps
          rw [hl1] at h
          exact h
      | failed e =>
          right
          have h := sessionEmits_counts_failed (loadPDF cache inst path mtime rr).inst ps e
          rw [hl1] at h
          exact h
    · have hk' : hasKey cache (binBufferKey
          { inst with pdfFilePath := some path, pdfFileMTime := some mtime }) = false := by
        cases hx : hasKey cache (binBufferKey
            { inst with pdfFilePath := some path, pdfFileMTime := some mtime })
        · rfl
        · exact absurd hx hk
      cases rr with
      | ok d =>
          have hp : (loadPDF cache inst path mtime (Except.ok d)).parsing = true := by
            rw [loadPDF_miss_ok cache inst path mtime d hk']
          have he : (loadPDF cache inst path mtime (Except.ok d)).emits = [] := by
            rw [loadPDF_miss_ok cache inst path mtime d hk']
          have hl1 : (loadPDF cache inst path mtime (Except.ok d)).inst.listeners = 1 := by
            rw [loadPDF_miss_ok cache inst path mtime d hk']
            show inst.listeners + 1 = 1
            rw [hfresh]
          rw [loadSessionEmits_of_parsing _ _ _ _ _ _ _ hp he]
          cases t with
          | done =>
              left
              have h := sessionEmits_counts_done
                (loadPDF cache inst path mtime (Except.ok d)).inst ps
              rw [hl1] at h
              exact h
          | failed e =>
              right
              have h := sessionEmits_counts_failed
                (loadPDF cache inst path mtime (Except.ok d)).inst ps e
              rw [hl1] at h
              exact h
      | error e =>
          have hp : (loadPDF cache inst path mtime (Except.error e)).parsing = false := by
            rw [loadPDF_miss_error cache inst path mtime e hk']
          have he : (loadPDF cache inst path mtime (Except.error e)).emits =
              [Emit.dataError (ErrPayload.raw e)] := by
            rw [loadPDF_miss_error cache inst path mtime e hk']
          rw [loadSessionEmits_of_not_parsing _ _ _ _ _ _ _ hp, he]
          right
          exact ⟨countReady_error_singleton _, countError_error_singleton _⟩

/-- Witness for C3 (amended) on a fresh instance. -/
theorem c3_first_session_witness :
    (mkInstance 0).listeners = 0 ∧
    (((countReady (parseBufferSessionEmits [] (mkInstance 0) [] [] Terminal.done) = 1 ∧
       countError (parseBufferSessionEmits [] (mkInstance 0) [] [] Terminal.done) = 0) ∨
      (countReady (parseBufferSessionEmits [] (mkInstance 0) [] [] Terminal.done) = 0 ∧
       countError (parseBufferSessionEmits [] (mkInstance 0) [] [] Terminal.done) = 1)) ∧
     ((countReady (loadSessionEmits [] (mkInstance 0) "a" 0 (Except.ok []) [] Terminal.done) = 1 ∧
       countError (loadSessionEmits [] (mkInstance 0) "a" 0 (Except.ok []) [] Terminal.done) = 0) ∨
      (countReady (loadSessionEmits [] (mkInstance 0) "a" 0 (Except.ok []) [] Terminal.done) = 0 ∧
       countError (loadSessionEmits [] (mkInstance 0) "a" 0 (Except.ok []) [] Terminal.done) = 1))) :=
  ⟨rfl, c3_first_session_terminal_exclusive [] (mkInstance 0) [] "a" 0
    (Except.ok []) [] Terminal.done rfl⟩

/-- C4: the claim that a failed disk read emits a data-error with payload
`{parserError: <that error>}` is FALSE on the code: `#processPDFContent`
emits the raw error object itself (src/pdfparser.js:110), without the
`parserError` wrapper used by the engine-error path. -/
theorem c4_counterexample_raw_error_payload :
    (loadPDF [] (mkInstance 0) "a.pdf" 5 (Except.error "EACCES")).emits =
        [Emit.dataError (ErrPayload.raw "EACCES")] ∧
      ¬ (loadPDF [] (mkInstance 0) "a.pdf" 5 (Except.error "EACCES")).emits =
        [Emit.dataError (ErrPayload.parserError "EACCES")] := by
  decide

/-- C4 (amended): when the disk read of a load fails (cache miss), the whole
session emits exactly one `pdfParser_dataError` signal whose payload is the
RAW error, and no `pdfParser_dataReady` signal. -/
theorem c4_read_error_raw_payload (cache : Cache) (inst : Instance)
    (path : String) (mtime : Nat) (e : String) (ps : List Obj) (t : Terminal)
    (hk : hasKey cache (binBufferKey
      { inst with pdfFilePath := some path, pdfFileMTime := some mtime }) = false) :
    loadSessionEmits cache inst path mtime (Except.error e) ps t =
        [Emit.dataError (ErrPayload.raw e)] ∧
      countReady (loadSessionEmits cache inst path mtime (Except.error e) ps t) = 0 ∧
      countError (loadSessionEmits cache inst path mtime (Except.error e) ps t) = 1 := by
  have hp : (loadPDF cache inst path mtime (Except.error e)).parsing = false := by
    rw [loadPDF_miss_error cache inst path mtime e hk]
  have he : (loadPDF cache inst path mtime (Except.error e)).emits =
      [Emit.dataError (ErrPayload.raw e)] := by
    rw [loadPDF_miss_error cache inst path mtime e hk]
  have hs := loadSessionEmits_of_not_parsing cache inst path mtime
    (Except.error e) ps t hp
  rw [hs, he]
  exact ⟨rfl, countReady_error_singleton _, countError_error_singleton _⟩

/-- Witness for C4 (amended) at a concrete failing read. -/
theorem c4_read_error_witness :
    hasKey [] (binBufferKey { mkInstance 0 with
        pdfFilePath := some "a.pdf", pdfFileMTime := some 5 }) = false ∧
    (loadSessionEmits [] (mkInstance 0) "a.pdf" 5 (Except.error "EACCES") []
        Terminal.done =
      [Emit.dataError (ErrPayload.raw "EACCES")] ∧
    countReady (loadSessionEmits [] (mkInstance 0) "a.pdf" 5
        (Except.error "EACCES") [] Terminal.done) = 0 ∧
    countError (loadSessionEmits [] (mkInstance 0) "a.pdf" 5
        (Except.error "EACCES") [] Terminal.done) = 1) :=
  ⟨by decide, c4_read_error_raw_payload [] (mkInstance 0) "a.pdf" 5 "EACCES"
    [] Terminal.done (by decide)⟩

/-- C5: for a session on a fresh instance, every incremental engine payload
is shallow-merged into the accumulating result with later keys overwriting
earlier ones at the top level (the value observed for any key is the one
assigned by the latest payload mentioning it), and the terminal signal
carries the fold of all payloads. -/
theorem c5_shallow_merge_last_wins (cache : Cache) (inst : Instance)
    (buffer : Bytes) (ps : List Obj) (k : String)
    (hfresh : inst.listeners = 0) :
    parseBufferSessionEmits cache inst buffer ps Terminal.done =
        [Emit.dataReady (some (ps.foldl jsMerge []))] ∧
      objLookup (ps.foldl jsMerge []) k = lastVal ps k := by
  constructor
  · rw [parseBufferSessionEmits_eq, runEngine_sessionTrace_emits]
    have hl1 : (parseBuffer cache inst buffer).inst.listeners = 1 := by
      show inst.listeners + 1 = 1
      rw [hfresh]
    have hdata : (runEngine (parseBuffer cache inst buffer).inst
        (ps.map (fun d => EngineEvent.parseDataReady (some d)))).1.data =
        some (ps.foldl jsMerge []) :=
      runEngine_payloads_data _ [] ps hl1 rfl
    rw [hl1, hdata]
    rfl
  · rw [objLookup_foldl_jsMerge]
    cases lastVal ps k <;> rfl

/-- Witness for C5: payloads {a:1}, {b:2}, {a:3} merge to {a:3, b:2}. -/
theorem c5_shallow_merge_witness :
    (mkInstance 0).listeners = 0 ∧
    parseBufferSessionEmits [] (mkInstance 0) []
        [[("a", 1)], [("b", 2)], [("a", 3)]] Terminal.done =
      [Emit.dataReady (some [("a", 3), ("b", 2)])] ∧
    objLookup ([[("a", 1)], [("b", 2)], [("a", 3)]].foldl jsMerge []) "a" =
      some 3 := by
  have h := c5_shallow_merge_last_wins [] (mkInstance 0) []
    [[("a", 1)], [("b", 2)], [("a", 3)]] "a" rfl
  refine ⟨rfl, ?_, ?_⟩
  · rw [h.1]
    rfl
  · rw [h.2]
    rfl

/-- C6: the claim "loading the same path twice with an unchanged modification
time triggers at most one disk read across both loads" is FALSE on the code
when the first read fails: nothing is cached on failure, so the second load
misses the cache and pushes a second read task. -/
theorem c6_counterexample_failed_first_read :
    ¬ ((loadPDF [] (mkInstance 0) "a.pdf" 1 (Except.error "EACCES")).reads +
       (loadPDF (loadPDF [] (mkInstance 0) "a.pdf" 1 (Except.error "EACCES")).cache
         (mkInstance 1) "a.pdf" 1 (Except.ok [9])).reads ≤ 1) := by
  decide

/-- C6 (amended): provided the first load's disk read succeeds, two
sequential loads of the same path with the same mtime trigger at most one
disk read in total; and any load whose cache key is already present skips
the read pipeline entirely and hands the cached bytes to the engine. -/
theorem c6_cache_hit_avoids_reread (cache : Cache) (i1 i2 : Instance)
    (path : String) (mtime : Nat) (d : Bytes) (r2 : Except String Bytes) :
    ((loadPDF cache i1 path mtime (Except.ok d)).reads +
      (loadPDF (loadPDF cache i1 path mtime (Except.ok d)).cache i2 path mtime
        r2).reads ≤ 1) ∧
    (∀ rr : Except String Bytes,
      hasKey cache (binBufferKey
        { i1 with pdfFilePath := some path, pdfFileMTime := some mtime }) = true →
      (loadPDF cache i1 path mtime rr).reads = 0 ∧
      (loadPDF cache i1 path mtime rr).parsing = true ∧
      (loadPDF cache i1 path mtime rr).engineBytes =
        cacheGet cache (binBufferKey
          { i1 with pdfFilePath := some path, pdfFileMTime := some mtime })) := by
  constructor
  · by_cases hk : hasKey cache (binBufferKey
        { i1 with pdfFilePath := some path, pdfFileMTime := some mtime }) = true
    · have h1 := loadPDF_hit cache i1 path mtime (Except.ok d) hk
      have hr1 : (loadPDF cache i1 path mtime (Except.ok d)).reads = 0 := by
        rw [h1]
      have hc1 : (loadPDF cache i1 path mtime (Except.ok d)).cache = cache := by
        rw [h1]
      have hk2 : hasKey cache (binBufferKey
          { i2 with pdfFilePath := some path, pdfFileMTime := some mtime }) = true := hk
      have h2 := loadPDF_hit cache i2 path mtime r2 hk2
      have hr2 : (loadPDF cache i2 path mtime r2).reads = 0 := by
        rw [h2]
      rw [hr1, hc1, hr2]
      omega
    · have hk' : hasKey cache (binBufferKey
          { i1 with pdfFilePath := some path, pdfFileMTime := some mtime }) = false := by
        cases hx : hasKey cache (binBufferKey
            { i1 with pdfFilePath := some path, pdfFileMTime := some mtime })
        · rfl
        · exact absurd hx hk
      have h1 := loadPDF_miss_ok cache i1 path mtime d hk'
      have hr1 : (loadPDF cache i1 path mtime (Except.ok d)).reads = 1 := by
        rw [h1]
      have hc1 : (loadPDF cache i1 path mtime (Except.ok d)).cache =
          cachePut (processBinaryCache cache
              { i1 with pdfFilePath := some path, pdfFileMTime := some mtime }).cache
            (binBufferKey { i1 with pdfFilePath := some path, pdfFileMTime := some mtime })
            d := by
        rw [h1]
      have hk2 : hasKey (loadPDF cache i1 path mtime (Except.ok d)).cache
          (binBufferKey
            { i2 with pdfFilePath := some path, pdfFileMTime := some mtime }) = true := by
        rw [hc1]
        exact hasKey_cachePut_self _ _ _
      have h2 := loadPDF_hit (loadPDF cache i1 path mtime (Except.ok d)).cache
        i2 path mtime r2 hk2
      have hr2 : (loadPDF (loadPDF cache i1 path mtime (Except.ok d)).cache
          i2 path mtime r2).reads = 0 := by
        rw [h2]
      rw [hr1, hr2]
  · intro rr hk
    rw [loadPDF_hit cache i1 path mtime rr hk]
    exact ⟨rfl, rfl, rfl⟩

/-- Witness for C6 (amended): a cache already holding the key "a1". -/
theorem c6_cache_hit_witness :
    ((loadPDF [("a1", [9])] (mkInstance 0) "a" 1 (Except.ok [7])).reads +
      (loadPDF (loadPDF [("a1", [9])] (mkInstance 0) "a" 1 (Except.ok [7])).cache
        (mkInstance 1) "a" 1 (Except.error "x")).reads ≤ 1) ∧
    (hasKey [("a1", [9])] (binBufferKey { mkInstance 0 with
        pdfFilePath := some "a", pdfFileMTime := some 1 }) = true ∧
     (loadPDF [("a1", [9])] (mkInstance 0) "a" 1 (Except.ok [])).reads = 0 ∧
     (loadPDF [("a1", [9])] (mkInstance 0) "a" 1 (Except.ok [])).parsing = true ∧
     (loadPDF [("a1", [9])] (mkInstance 0) "a" 1 (Except.ok [])).engineBytes =
       cacheGet [("a1", [9])] (binBufferKey { mkInstance 0 with
         pdfFilePath := some "a", pdfFileMTime := some 1 })) :=
  ⟨(c6_cache_hit_avoids_reread [("a1", [9])] (mkInstance 0) (mkInstance 1)
      "a" 1 [7] (Except.error "x")).1,
   by decide,
   (c6_cache_hit_avoids_reread [("a1", [9])] (mkInstance 0) (mkInstance 1)
      "a" 1 [7] (Except.error "x")).2 (Except.ok []) (by decide)⟩

/-- C7: after any `pdfParser_dataError` — engine-reported parse failure
(session with at least one attached handler pair) or disk-read failure —
the instance's result (`#data`, the `data` accessor) is null: no partial
data accumulated before the error remains observable. -/
theorem c7_error_clears_result :
    (∀ (inst : Instance) (ps : List Obj) (e : String), 1 ≤ inst.listeners →
      (runEngine inst (sessionTrace ps (Terminal.failed e))).1.data = none) ∧
    (∀ (cache : Cache) (inst : Instance) (path : String) (mtime : Nat) (e : String),
      hasKey cache (binBufferKey
        { inst with pdfFilePath := some path, pdfFileMTime := some mtime }) = false →
      (loadPDF cache inst path mtime (Except.error e)).inst.data = none) :=
  ⟨fun inst ps e h => runEngine_sessionTrace_failed_data inst ps e h,
   fun cache inst path mtime e hk => by
     rw [loadPDF_miss_error cache inst path mtime e hk]⟩

/-- Witness for C7 at a concrete failed session and a concrete failed read. -/
theorem c7_error_clears_witness :
    (1 ≤ (parseBuffer [] (mkInstance 0) []).inst.listeners ∧
      (runEngine (parseBuffer [] (mkInstance 0) []).inst
        (sessionTrace [[("a", 1)]] (Terminal.failed "bad"))).1.data = none) ∧
    (hasKey [] (binBufferKey { mkInstance 0 with
        pdfFilePath := some "a", pdfFileMTime := some 1 }) = false ∧
      (loadPDF [] (mkInstance 0) "a" 1 (Except.error "denied")).inst.data = none) :=
  ⟨⟨by decide, c7_error_clears_result.1 (parseBuffer [] (mkInstance 0) []).inst
      [[("a", 1)]] "bad" (by decide)⟩,
   ⟨by decide, c7_error_clears_result.2 [] (mkInstance 0) "a" 1 "denied" (by decide)⟩⟩

/-- C8: `parseBuffer` starts the parse directly from the caller-supplied
bytes and leaves the shared cache, `#pdfFilePath` and `#pdfFileMTime`
unchanged; it enqueues no read task and, because a JS Buffer is truthy, the
bytes handed to the engine are exactly the caller's. -/
theorem c8_parseBuffer_frame (cache : Cache) (inst : Instance) (b : Bytes) :
    (parseBuffer cache inst b).cache = cache ∧
    (parseBuffer cache inst b).inst.pdfFilePath = inst.pdfFilePath ∧
    (parseBuffer cache inst b).inst.pdfFileMTime = inst.pdfFileMTime ∧
    (parseBuffer cache inst b).engineBytes = some b ∧
    (parseBuffer cache inst b).reads = 0 ∧
    (parseBuffer cache inst b).emits = [] :=
  ⟨rfl, rfl, rfl, rfl, rfl, rfl⟩

/-- C9: the ids of N instances constructed in one process are exactly
0, 1, ..., N-1: pairwise distinct, strictly increasing in creation order,
and starting at 0. -/
theorem c9_ids_strictly_increasing (n : Nat) :
    (constructMany 0 n).2.map (fun i => i.id) = List.range n ∧
    List.Pairwise (fun a b => a < b) ((constructMany 0 n).2.map (fun i => i.id)) ∧
    (0 < n → ((constructMany 0 n).2.map (fun i => i.id)).get? 0 = some 0) := by
  have h : (constructMany 0 n).2.map (fun i => i.id) = List.range n := by
    rw [constructMany_ids n 0, List.range_eq_range']
  refine ⟨h, ?_, ?_⟩
  · rw [h]
    exact List.pairwise_lt_range n
  · intro hn
    rw [h, List.get?_eq_getElem?, List.getElem?_range hn]

/-- Witness for C9 at three instances. -/
theorem c9_ids_witness :
    (constructMany 0 3).2.map (fun i => i.id) = List.range 3 ∧
    List.Pairwise (fun a b => a < b) ((constructMany 0 3).2.map (fun i => i.id)) ∧
    ((constructMany 0 3).2.map (fun i => i.id)).get? 0 = some 0 :=
  ⟨(c9_ids_strictly_increasing 3).1, (c9_ids_strictly_increasing 3).2.1,
   (c9_ids_strictly_increasing 3).2.2 (by decide)⟩

/-- C10: the claim "EVERY load/parseBuffer session subscribes two new
handlers, so after the n-th session each engine signal invokes the handler
n times" is FALSE on the code for a load whose read fails: that session
never reaches `#startParsingPDF`, attaches nothing, and a subsequent engine
signal invokes no handler (0 times, not 1). -/
theorem c10_counterexample_failed_read_session :
    (loadPDF [] (mkInstance 0) "a.pdf" 1 (Except.error "EACCES")).inst.listeners = 0 ∧
    (dispatch (loadPDF [] (mkInstance 0) "a.pdf" 1 (Except.error "EACCES")).inst
      (EngineEvent.parseDataReady none)).2.length = 0 ∧
    ¬ (dispatch (loadPDF [] (mkInstance 0) "a.pdf" 1 (Except.error "EACCES")).inst
      (EngineEvent.parseDataReady none)).2.length = 1 := by
  decide

/-- C10 (amended): every session that reaches the parse phase (`parseBuffer`
always; `loadPDF` exactly when `parsePDFData` is invoked, i.e. on a cache
hit or a successful read) attaches exactly one more handler pair to the
engine handle, never removing earlier ones; a load that fails its read
attaches none; and an engine signal invokes its handler once per attached
pair, i.e. `listeners` times. -/
theorem c10_listener_accumulation :
    (∀ (cache : Cache) (inst : Instance) (b : Bytes),
      (parseBuffer cache inst b).inst.listeners = inst.listeners + 1) ∧
    (∀ (cache : Cache) (inst : Instance) (p : String) (m : Nat)
        (r : Except String Bytes),
      (loadPDF cache inst p m r).parsing = true →
        (loadPDF cache inst p m r).inst.listeners = inst.listeners + 1) ∧
    (∀ (cache : Cache) (inst : Instance) (p : String) (m : Nat)
        (r : Except String Bytes),
      (loadPDF cache inst p m r).parsing = false →
        (loadPDF cache inst p m r).inst.listeners = inst.listeners) ∧
    (∀ inst : Instance,
      (dispatch inst (EngineEvent.parseDataReady none)).2 =
        List.replicate inst.listeners (Emit.dataReady inst.data)) ∧
    (∀ (inst : Instance) (e : String),
      (dispatch inst (EngineEvent.parseDataError e)).2 =
        List.replicate inst.listeners (Emit.dataError (ErrPayload.parserError e))) := by
  refine ⟨fun _ _ _ => rfl, ?_, ?_, ?_, ?_⟩
  · intro cache inst p m r hp
    by_cases hk : hasKey cache (binBufferKey
        { inst with pdfFilePath := some p, pdfFileMTime := some m }) = true
    · rw [loadPDF_hit cache inst p m r hk]
      rfl
    · have hk' : hasKey cache (binBufferKey
          { inst with pdfFilePath := some p, pdfFileMTime := some m }) = false := by
        cases hx : hasKey cache (binBufferKey
            { inst with pdfFilePath := some p, pdfFileMTime := some m })
        · rfl
        · exact absurd hx hk
      cases r with
      | ok d =>
          rw [loadPDF_miss_ok cache inst p m d hk']
          rfl
      | error e =>
          rw [loadPDF_miss_error cache inst p m e hk'] at hp
          simp at hp
  · intro cache inst p m r hp
    by_cases hk : hasKey cache (binBufferKey
        { inst with pdfFilePath := some p, pdfFileMTime := some m }) = true
    · rw [loadPDF_hit cache inst p m r hk] at hp
      simp at hp
    · have hk' : hasKey cache (binBufferKey
          { inst with pdfFilePath := some p, pdfFileMTime := some m }) = false := by
        cases hx : hasKey cache (binBufferKey
            { inst with pdfFilePath := some p, pdfFileMTime := some m })
        · rfl
        · exact absurd hx hk
      cases r with
      | ok d =>
          rw [loadPDF_miss_ok cache inst p m d hk'] at hp
          simp at hp
      | error e =>
          rw [loadPDF_miss_error cache inst p m e hk']
  · intro inst
    rw [dispatch, applyHandlers_ready_none]
  · intro inst e
    rw [dispatch, applyHandlers_error]

/-- Witness for C10 (amended) at concrete sessions. -/
theorem c10_listener_witness :
    (parseBuffer [] (mkInstance 0) []).inst.listeners = (mkInstance 0).listeners + 1 ∧
    ((loadPDF [] (mkInstance 0) "a" 0 (Except.ok [])).parsing = true ∧
      (loadPDF [] (mkInstance 0) "a" 0 (Except.ok [])).inst.listeners =
        (mkInstance 0).listeners + 1) ∧
    ((loadPDF [] (mkInstance 0) "a" 0 (Except.error "x")).parsing = false ∧
      (loadPDF [] (mkInstance 0) "a" 0 (Except.error "x")).inst.listeners =
        (mkInstance 0).listeners) ∧
    (dispatch (parseBuffer [] (mkInstance 0) []).inst
        (EngineEvent.parseDataReady none)).2 =
      List.replicate (parseBuffer [] (mkInstance 0) []).inst.listeners
        (Emit.dataReady (parseBuffer [] (mkInstance 0) []).inst.data) ∧
    (dispatch (parseBuffer [] (mkInstance 0) []).inst
        (EngineEvent.parseDataError "bad")).2 =
      List.replicate (parseBuffer [] (mkInstance 0) []).inst.listeners
        (Emit.dataError (ErrPayload.parserError "bad")) :=
  ⟨c10_listener_accumulation.1 [] (mkInstance 0) [],
   ⟨by decide, c10_listener_accumulation.2.1 [] (mkInstance 0) "a" 0
      (Except.ok []) (by decide)⟩,
   ⟨by decide, c10_listener_accumulation.2.2.1 [] (mkInstance 0) "a" 0
      (Except.error "x") (by decide)⟩,
   c10_listener_accumulation.2.2.2.1 (parseBuffer [] (mkInstance 0) []).inst,
   c10_listener_accumulation.2.2.2.2 (parseBuffer [] (mkInstance 0) []).inst "bad"⟩

end PdfParser
